import Mathlib

/-!
Verification of the post-controller of `express-api`
(`src/controllers/postController.js`), shallowly embedded in Lean.

The module-level mutable array `posts` is modelled as explicit state of
type `List Post` threaded through each handler; every handler returns the
response it writes together with the collection as it stands afterwards.
The boundary collaborators (HTTP routing, `parseInt`, JSON serialization)
supply already-parsed parameters: a query/path parameter that `parseInt`
turned into `NaN` (absent or non-numeric text) arrives as `none`, a body
field that is absent (`undefined`) arrives as `none`.
-/

namespace PostController

/-- A post record `{ id, title }`.  `title` is `Option String` because the
request body's `title` field may be `undefined` in the source and
`updatePost` stores it unvalidated. -/
structure Post where
  id : Int
  title : Option String
  deriving DecidableEq

/-- What a handler hands to the response writer: either `res.status(s).json(body)`
or an error object `{ message, status }` passed to `next`. -/
inductive HandlerResult (α : Type) : Type where
  | ok (status : Nat) (body : α)
  | err (status : Nat) (message : String)
  deriving DecidableEq

/-- The seed collection the module initialises `posts` with (lines 1-5). -/
def seedPosts : List Post :=
  [{ id := 1, title := some "Post 1" },
   { id := 2, title := some "Post 2" },
   { id := 3, title := some "Post 3" }]

/-- JavaScript falsiness of the `title` value as tested by `!newPost.title`:
`undefined` and the empty string are falsy. -/
def titleFalsy : Option String → Bool
  | none => true
  | some t => t == ""

/-- `getPosts` (lines 19-26): if the parsed `limit` is a number `> 0`,
respond 400 with `posts.slice(0, limit)`, else respond 200 with all posts.
The collection is never modified. -/
def getPosts (ps : List Post) (limit : Option Int) :
    HandlerResult (List Post) × List Post :=
  match limit with
  | some n => if 0 < n then (.ok 400 (ps.take n.toNat), ps) else (.ok 200 ps, ps)
  | none => (.ok 200 ps, ps)

/-- `getPost` (lines 41-52): first entry whose `id` matches, 404 error
with message if none. -/
def getPost (ps : List Post) (i : Int) : HandlerResult Post × List Post :=
  match ps.find? (fun p => p.id == i) with
  | some p => (.ok 200 p, ps)
  | none =>
    (.err 404 ("A post with the id of " ++ toString i ++ " was not found"), ps)

/-- `createPost` (lines 66-80): build the provisional entry with
`id = posts.length + 1`; if its title is falsy, 400 error and no append;
otherwise push it and respond 201 with the whole updated collection. -/
def createPost (ps : List Post) (title : Option String) :
    HandlerResult (List Post) × List Post :=
  let newPost : Post := { id := (ps.length : Int) + 1, title := title }
  if titleFalsy newPost.title then
    (.err 400 "Please include a title", ps)
  else
    (.ok 201 (ps ++ [newPost]), ps ++ [newPost])

/-- In-place mutation `post.title = req.body.title` of the object returned
by `posts.find`: the first entry with matching id gets the new title, all
other entries are untouched. -/
def setTitleFirst (ps : List Post) (i : Int) (t : Option String) : List Post :=
  match ps with
  | [] => []
  | p :: rest =>
    if p.id == i then { p with title := t } :: rest
    else p :: setTitleFirst rest i t

/-- `updatePost` (lines 82-94): find the first entry with matching id;
400 error with message if none, otherwise overwrite its title and respond
200 with the mutated post. -/
def updatePost (ps : List Post) (i : Int) (t : Option String) :
    HandlerResult Post × List Post :=
  match ps.find? (fun p => p.id == i) with
  | none => (.err 400 ("Post with " ++ toString i ++ " is not found"), ps)
  | some p => (.ok 200 { p with title := t }, setTitleFirst ps i t)

/-- `deletePost` (lines 96-108): find the first entry with matching id;
400 error with message if none, otherwise reassign
`posts = posts.filter(post => post.id !== id)` and respond 200 with the
entry found before the filter. -/
def deletePost (ps : List Post) (i : Int) : HandlerResult Post × List Post :=
  match ps.find? (fun p => p.id == i) with
  | none => (.err 400 ("Post with " ++ toString i ++ " is not found"), ps)
  | some p => (.ok 200 p, ps.filter (fun q => !(q.id == i)))

/-- C1: new ids are `size + 1`, so after `create("Post 4")`, `delete(2)`,
the second `create("Post 5")` is assigned id `3 + 1 = 4`, colliding with
the entry `{4, "Post 4"}` already present: the final collection carries
id 4 twice. -/
theorem createPost_id_collision_after_delete :
    (deletePost (createPost seedPosts (some "Post 4")).2 2).2 =
      [{ id := 1, title := some "Post 1" }, { id := 3, title := some "Post 3" },
       { id := 4, title := some "Post 4" }] ∧
    (createPost (deletePost (createPost seedPosts (some "Post 4")).2 2).2
        (some "Post 5")).2 =
      [{ id := 1, title := some "Post 1" }, { id := 3, title := some "Post 3" },
       { id := 4, title := some "Post 4" }, { id := 4, title := some "Post 5" }] ∧
    ((createPost (deletePost (createPost seedPosts (some "Post 4")).2 2).2
        (some "Post 5")).2.map Post.id) = [1, 3, 4, 4] := by
  refine ⟨?_, ?_, ?_⟩ <;> rfl

/-- C2: for a limit that parsed as an integer `n > 0`, `getPosts` responds
with status 400 and exactly the first `min n size` entries of the
collection in their current order; for an absent/non-numeric (`none`) or
non-positive limit it responds 200 with the full collection; in every
branch the collection is left unchanged. -/
theorem getPosts_spec (ps : List Post) (n : Int) :
    (0 < n →
      getPosts ps (some n) = (.ok 400 (ps.take n.toNat), ps) ∧
      (ps.take n.toNat).length = min n.toNat ps.length ∧
      ps.take n.toNat ++ ps.drop n.toNat = ps) ∧
    (¬ 0 < n → getPosts ps (some n) = (.ok 200 ps, ps)) ∧
    getPosts ps none = (.ok 200 ps, ps) := by
  refine ⟨fun h => ⟨?_, ?_, ?_⟩, fun h => ?_, rfl⟩
  · simp [getPosts, h]
  · simp [List.length_take]
  · exact List.take_append_drop n.toNat ps
  · simp [getPosts, h]

/-- Witness for C2 at concrete inputs: limit 2 truncates `seedPosts` with
status 400, limit 0 returns everything with status 200. -/
theorem getPosts_spec_witness :
    getPosts seedPosts (some 2) = (.ok 400 (seedPosts.take 2), seedPosts) ∧
    getPosts seedPosts (some 0) = (.ok 200 seedPosts, seedPosts) :=
  ⟨((getPosts_spec seedPosts 2).1 (by decide)).1,
   (getPosts_spec seedPosts 0).2.1 (by decide)⟩

/-- C3: when an entry with the requested id is present and is the only
one with that id, `getPost` responds 200 with it; when no entry has that
id, `getPost` fails with status 404 and the message
`A post with the id of {id} was not found`; the collection is unchanged
either way. -/
theorem getPost_spec (ps : List Post) (i : Int) :
    (∀ p, p ∈ ps → p.id = i → (∀ q ∈ ps, q.id = i → q = p) →
      getPost ps i = (.ok 200 p, ps)) ∧
    ((∀ q ∈ ps, q.id ≠ i) →
      getPost ps i =
        (.err 404 ("A post with the id of " ++ toString i ++ " was not found"),
         ps)) := by
  constructor
  · intro p hp hpi huniq
    have hsome : (ps.find? (fun q => q.id == i)).isSome := by
      rw [List.find?_isSome]
      exact ⟨p, hp, by simp [hpi]⟩
    obtain ⟨q, hq⟩ := Option.isSome_iff_exists.mp hsome
    have hqi : q.id = i := by simpa using List.find?_some hq
    have hqp : q = p := huniq q (List.mem_of_find?_eq_some hq) hqi
    subst hqp
    simp [getPost, hq]
  · intro h
    have hnone : ps.find? (fun q => q.id == i) = none := by
      rw [List.find?_eq_none]
      intro q hq
      simpa using h q hq
    simp [getPost, hnone]

/-- Witness for C3 at concrete inputs: id 2 is found in the seed
collection, id 7 yields the 404 error. -/
theorem getPost_spec_witness :
    getPost seedPosts 2 = (.ok 200 { id := 2, title := some "Post 2" }, seedPosts) ∧
    getPost seedPosts 7 =
      (.err 404 ("A post with the id of " ++ toString (7 : Int) ++ " was not found"),
       seedPosts) :=
  ⟨(getPost_spec seedPosts 2).1 { id := 2, title := some "Post 2" }
      (by simp [seedPosts]) (by decide) (by decide),
   (getPost_spec seedPosts 7).2 (by decide)⟩

/-- C4: creating with a non-empty title appends exactly one entry, whose
title is the input and whose id is the previous size plus 1, leaves all
pre-existing entries in place, and responds 201 with the full updated
collection. -/
theorem createPost_success (ps : List Post) (t : String) (h : t ≠ "") :
    createPost ps (some t) =
      (.ok 201 (ps ++ [{ id := (ps.length : Int) + 1, title := some t }]),
       ps ++ [{ id := (ps.length : Int) + 1, title := some t }]) ∧
    (createPost ps (some t)).2.length = ps.length + 1 := by
  have hf : titleFalsy (some t) = false := by simp [titleFalsy, h]
  constructor
  · simp [createPost, hf]
  · simp [createPost, hf]

/-- Witness for C4: creating "Post 4" on the seed collection appends
`{4, "Post 4"}`. -/
theorem createPost_success_witness :
    createPost seedPosts (some "Post 4") =
      (.ok 201 (seedPosts ++ [{ id := 4, title := some "Post 4" }]),
       seedPosts ++ [{ id := 4, title := some "Post 4" }]) ∧
    (createPost seedPosts (some "Post 4")).2.length = seedPosts.length + 1 :=
  createPost_success seedPosts "Post 4" (by decide)

/-- C5: creating with an absent (`undefined`) or empty title fails with
status 400 and the message `Please include a title`, and the collection is
unchanged: the provisional entry built before validation is never
appended. -/
theorem createPost_invalid (ps : List Post) (t : Option String)
    (h : t = none ∨ t = some "") :
    createPost ps t = (.err 400 "Please include a title", ps) := by
  rcases h with h | h <;> subst h <;> simp [createPost, titleFalsy]

/-- Witness for C5: creating with an absent title on the seed collection
errors and leaves the collection as it was. -/
theorem createPost_invalid_witness :
    createPost seedPosts none = (.err 400 "Please include a title", seedPosts) :=
  createPost_invalid seedPosts none (Or.inl rfl)

/-- `find` on a collection split around its first entry of id `i` returns
that entry. -/
theorem find?_first_match (l₁ l₂ : List Post) (p : Post) (i : Int)
    (h₁ : ∀ q ∈ l₁, q.id ≠ i) (hp : p.id = i) :
    (l₁ ++ p :: l₂).find? (fun q => q.id == i) = some p := by
  induction l₁ with
  | nil =>
    rw [List.nil_append, List.find?_cons_of_pos _ (by simp [hp])]
  | cons a l ih =>
    have ha : (a.id == i) = false := by
      simpa using h₁ a (List.mem_cons_self a l)
    rw [List.cons_append, List.find?_cons]
    simp only [ha]
    exact ih fun q hq => h₁ q (List.mem_cons_of_mem a hq)

/-- Mutating the title of the first entry of id `i` rewrites exactly that
position of the collection. -/
theorem setTitleFirst_first_match (l₁ l₂ : List Post) (p : Post) (i : Int)
    (t : Option String) (h₁ : ∀ q ∈ l₁, q.id ≠ i) (hp : p.id = i) :
    setTitleFirst (l₁ ++ p :: l₂) i t = l₁ ++ { p with title := t } :: l₂ := by
  induction l₁ with
  | nil => simp [setTitleFirst, hp]
  | cons a l ih =>
    have ha : (a.id == i) = false := by
      simpa using h₁ a (List.mem_cons_self a l)
    rw [List.cons_append, setTitleFirst, List.cons_append]
    simp only [ha, Bool.false_eq_true, if_false, List.cons.injEq, true_and]
    exact ih fun q hq => h₁ q (List.mem_cons_of_mem a hq)

/-- Filtering away id `i` from a collection split around its first entry
of id `i` keeps the earlier entries and filters the tail. -/
theorem filter_ne_first_match (l₁ l₂ : List Post) (p : Post) (i : Int)
    (h₁ : ∀ q ∈ l₁, q.id ≠ i) (hp : p.id = i) :
    (l₁ ++ p :: l₂).filter (fun q => !(q.id == i)) =
      l₁ ++ l₂.filter (fun q => !(q.id == i)) := by
  induction l₁ with
  | nil => simp [List.filter_cons, hp]
  | cons a l ih =>
    have ha : (a.id == i) = false := by
      simpa using h₁ a (List.mem_cons_self a l)
    rw [List.cons_append, List.filter_cons, List.cons_append]
    simp only [ha, Bool.not_false, if_pos]
    rw [ih fun q hq => h₁ q (List.mem_cons_of_mem a hq)]

/-- The entries kept by the filter and the matching entries it drops
account for the whole collection. -/
theorem length_filter_ne_add_countP (l : List Post) (i : Int) :
    (l.filter (fun q => !(q.id == i))).length +
      l.countP (fun q => q.id == i) = l.length := by
  induction l with
  | nil => rfl
  | cons a l ih =>
    by_cases h : (a.id == i) = true <;>
      simp [List.filter_cons, List.countP_cons, h] <;> omega

/-- C6: updating an id whose first (and, with unique ids, only) match is
`p` overwrites exactly that entry's title, keeps every other entry, every
id, the size and the order of the collection, and responds 200 with the
mutated post. -/
theorem updatePost_success (l₁ l₂ : List Post) (p : Post) (i : Int)
    (t : Option String) (h₁ : ∀ q ∈ l₁, q.id ≠ i) (hp : p.id = i) :
    updatePost (l₁ ++ p :: l₂) i t =
      (.ok 200 { id := p.id, title := t },
       l₁ ++ { id := p.id, title := t } :: l₂) ∧
    (l₁ ++ { id := p.id, title := t } :: l₂).length = (l₁ ++ p :: l₂).length ∧
    (l₁ ++ { id := p.id, title := t } :: l₂).map Post.id =
      (l₁ ++ p :: l₂).map Post.id := by
  have hf := find?_first_match l₁ l₂ p i h₁ hp
  have hs := setTitleFirst_first_match l₁ l₂ p i t h₁ hp
  exact ⟨by simp [updatePost, hf, hs], by simp, by simp⟩

/-- Witness for C6: updating id 2 of the seed collection to title "New"
rewrites only the middle entry. -/
theorem updatePost_success_witness :
    updatePost seedPosts 2 (some "New") =
      (.ok 200 { id := 2, title := some "New" },
       [{ id := 1, title := some "Post 1" }, { id := 2, title := some "New" },
        { id := 3, title := some "Post 3" }]) :=
  (updatePost_success [{ id := 1, title := some "Post 1" }]
    [{ id := 3, title := some "Post 3" }] { id := 2, title := some "Post 2" }
    2 (some "New") (by decide) (by decide)).1

/-- C7: deleting an id whose only match is `p` removes exactly `p`,
preserves the relative order of the remaining entries, shrinks the
collection by one, and responds 200 with the removed entry as it was. -/
theorem deletePost_success (l₁ l₂ : List Post) (p : Post) (i : Int)
    (h₁ : ∀ q ∈ l₁, q.id ≠ i) (hp : p.id = i) (h₂ : ∀ q ∈ l₂, q.id ≠ i) :
    deletePost (l₁ ++ p :: l₂) i = (.ok 200 p, l₁ ++ l₂) ∧
    (l₁ ++ l₂).length + 1 = (l₁ ++ p :: l₂).length := by
  have hf := find?_first_match l₁ l₂ p i h₁ hp
  have hflt := filter_ne_first_match l₁ l₂ p i h₁ hp
  have hl₂ : l₂.filter (fun q => !(q.id == i)) = l₂ :=
    List.filter_eq_self.mpr fun q hq => by simpa using h₂ q hq
  refine ⟨by simp [deletePost, hf, hflt, hl₂], ?_⟩
  simp only [List.length_append, List.length_cons]
  omega

/-- Witness for C7: deleting id 2 from the seed collection removes the
middle entry and returns it. -/
theorem deletePost_success_witness :
    deletePost seedPosts 2 =
      (.ok 200 { id := 2, title := some "Post 2" },
       [{ id := 1, title := some "Post 1" }, { id := 3, title := some "Post 3" }]) :=
  (deletePost_success [{ id := 1, title := some "Post 1" }]
    [{ id := 3, title := some "Post 3" }] { id := 2, title := some "Post 2" }
    2 (by decide) (by decide) (by decide)).1

/-- C8: for an id with no matching entry, both `updatePost` and
`deletePost` fail with status 400 and the message
`Post with {id} is not found`, leaving the collection unchanged. -/
theorem update_delete_not_found (ps : List Post) (i : Int) (t : Option String)
    (h : ∀ q ∈ ps, q.id ≠ i) :
    updatePost ps i t =
      (.err 400 ("Post with " ++ toString i ++ " is not found"), ps) ∧
    deletePost ps i =
      (.err 400 ("Post with " ++ toString i ++ " is not found"), ps) := by
  have hnone : ps.find? (fun q => q.id == i) = none := by
    rw [List.find?_eq_none]
    intro q hq
    simpa using h q hq
  exact ⟨by simp [updatePost, hnone], by simp [deletePost, hnone]⟩

/-- Witness for C8: id 9 is absent from the seed collection, so update and
delete both error with the 400 message and leave the collection alone. -/
theorem update_delete_not_found_witness :
    updatePost seedPosts 9 (some "X") =
      (.err 400 ("Post with " ++ toString (9 : Int) ++ " is not found"), seedPosts) ∧
    deletePost seedPosts 9 =
      (.err 400 ("Post with " ++ toString (9 : Int) ++ " is not found"), seedPosts) :=
  update_delete_not_found seedPosts 9 (some "X") (by decide)

/-- C9: `updatePost` validates nothing about the title: whenever some
entry matches the id it succeeds for every title value, absent (`none`)
and empty included, storing that value as the entry's title; it fails
only when no entry matches, and then with the not-found message, never
with the validation message used by `createPost`. -/
theorem updatePost_no_validation (ps : List Post) (i : Int) (t : Option String) :
    ((∃ p, p ∈ ps ∧ p.id = i) →
      ∃ p ps', updatePost ps i t = (.ok 200 p, ps') ∧ p.title = t) ∧
    ((∀ q ∈ ps, q.id ≠ i) →
      updatePost ps i t =
        (.err 400 ("Post with " ++ toString i ++ " is not found"), ps)) := by
  constructor
  · rintro ⟨p, hp, hpi⟩
    have hsome : (ps.find? (fun q => q.id == i)).isSome := by
      rw [List.find?_isSome]
      exact ⟨p, hp, by simp [hpi]⟩
    obtain ⟨q, hq⟩ := Option.isSome_iff_exists.mp hsome
    exact ⟨{ q with title := t }, setTitleFirst ps i t, by simp [updatePost, hq], rfl⟩
  · intro h
    have hnone : ps.find? (fun q => q.id == i) = none := by
      rw [List.find?_eq_none]
      intro q hq
      simpa using h q hq
    simp [updatePost, hnone]

/-- Witness for C9: updating id 1 of the seed collection with an absent
title succeeds and stores `none` as the title. -/
theorem updatePost_no_validation_witness :
    ∃ p ps', updatePost seedPosts 1 none = (.ok 200 p, ps') ∧ p.title = none :=
  (updatePost_no_validation seedPosts 1 none).1
    ⟨{ id := 1, title := some "Post 1" }, by simp [seedPosts], rfl⟩

/-- C10: on a collection holding the requested id two or more times (a
state the id-collision defect makes reachable), `deletePost` removes every
matching entry — the size drops by the number of matches — while
responding with only the first matching entry. -/
theorem deletePost_duplicates (l₁ l₂ : List Post) (p : Post) (i : Int)
    (h₁ : ∀ q ∈ l₁, q.id ≠ i) (hp : p.id = i) (hdup : ∃ q, q ∈ l₂ ∧ q.id = i) :
    deletePost (l₁ ++ p :: l₂) i =
      (.ok 200 p, l₁ ++ l₂.filter (fun q => !(q.id == i))) ∧
    (l₁ ++ l₂.filter (fun q => !(q.id == i))).length +
        (l₁ ++ p :: l₂).countP (fun q => q.id == i) = (l₁ ++ p :: l₂).length ∧
    2 ≤ (l₁ ++ p :: l₂).countP (fun q => q.id == i) := by
  have hf := find?_first_match l₁ l₂ p i h₁ hp
  have hflt := filter_ne_first_match l₁ l₂ p i h₁ hp
  have hc₁ : l₁.countP (fun q => q.id == i) = 0 := by
    rw [List.countP_eq_zero]
    intro q hq
    simpa using h₁ q hq
  have hc₂ : 0 < l₂.countP (fun q => q.id == i) := by
    rw [List.countP_pos_iff]
    obtain ⟨q, hq, hqi⟩ := hdup
    exact ⟨q, hq, by simp [hqi]⟩
  have hlen := length_filter_ne_add_countP l₂ i
  have htot : (l₁ ++ p :: l₂).countP (fun q => q.id == i) =
      l₂.countP (fun q => q.id == i) + 1 := by
    rw [List.countP_append, List.countP_cons, hc₁]
    simp [hp]
  refine ⟨by simp [deletePost, hf, hflt], ?_, ?_⟩
  · rw [htot]
    simp only [List.length_append, List.length_cons]
    omega
  · rw [htot]
    omega

/-- Witness for C10: the post-collision collection holds id 4 twice;
deleting id 4 removes both entries and returns the first one. -/
theorem deletePost_duplicates_witness :
    deletePost [{ id := 1, title := some "Post 1" },
                { id := 4, title := some "Post 4" },
                { id := 4, title := some "Post 5" }] 4 =
      (.ok 200 { id := 4, title := some "Post 4" },
       [{ id := 1, title := some "Post 1" }]) :=
  (deletePost_duplicates [{ id := 1, title := some "Post 1" }]
    [{ id := 4, title := some "Post 5" }] { id := 4, title := some "Post 4" }
    4 (by decide) (by decide)
    ⟨{ id := 4, title := some "Post 5" }, by simp, rfl⟩).1

end PostController
